import Mathlib

/-!
Verification development for the AILibrary backend: a shallow embedding in
Lean 4 of the conversation store (src/services/conversation.py and
src/services/mongo_conversation.py), the request model
(src/models/chat.py), and the streaming orchestrator generator
(src/main.py, generate_stream), together with theorems settling the
specification claims. Physical time instants are modelled as natural
numbers and are passed explicitly where the Python code calls
datetime.utcnow(); every store operation threads its state explicitly.
-/

/-- A message as stored inside a conversation record: the Python dict
with keys role, content and timestamp built in add_message. -/
structure StoredMessage where
  role : String
  content : String
  timestamp : Nat
  deriving DecidableEq, Repr

/-- The ChatMessage model of src/models/chat.py (role and content); the
role literal constraint is not tracked in the embedding. -/
structure ChatMessage where
  role : String
  content : String
  deriving DecidableEq, Repr

/-- One in-memory conversation record: the dict value stored in
ConversationManager._conversations. -/
structure Conv where
  messages : List StoredMessage
  created_at : Nat
  updated_at : Nat
  deriving DecidableEq, Repr

/-- One MongoDB conversation document as written by
MongoConversationManager (messages, timestamps, temporary flag and the
optional expiry instant). -/
structure MongoDoc where
  messages : List StoredMessage
  created_at : Nat
  updated_at : Nat
  temporary : Bool
  expires_at : Option Nat
  deriving DecidableEq, Repr

/-- A string-keyed dictionary, modelling both the Python dict backing
ConversationManager and the set of MongoDB documents keyed by _id.
Entries are kept in insertion order, as a Python dict does. -/
abbrev Dict (α : Type) : Type := List (String × α)

/-- Lookup by key: the first entry whose key matches. -/
def Dict.find? {α : Type} : Dict α → String → Option α
  | [], _ => none
  | e :: rest, k => if e.1 = k then some e.2 else Dict.find? rest k

/-- Python dictionary assignment d[k] = v: replace the value in place if
the key is present, otherwise append a fresh entry. -/
def Dict.setItem {α : Type} (s : Dict α) (k : String) (v : α) : Dict α :=
  if (Dict.find? s k).isSome then
    s.map (fun e => if e.1 = k then (e.1, v) else e)
  else
    s ++ [(k, v)]

/-- In-place mutation of the value stored under a key (modelling Python
mutation of the dict entry, and the MongoDB update_one). Entries under
other keys are untouched; a missing key leaves the dictionary unchanged. -/
def Dict.updateVal {α : Type} (s : Dict α) (k : String) (f : α → α) : Dict α :=
  s.map (fun e => if e.1 = k then (e.1, f e.2) else e)

/-- Python del d[k] (respectively MongoDB delete_one on _id): remove the
entries stored under the key. -/
def Dict.erase {α : Type} : Dict α → String → Dict α
  | [], _ => []
  | e :: rest, k => if e.1 = k then Dict.erase rest k else e :: Dict.erase rest k

/-- Number of entries stored under a key (count_documents with an _id
filter in the MongoDB backend). -/
def Dict.countKey {α : Type} : Dict α → String → Nat
  | [], _ => 0
  | e :: rest, k => (if e.1 = k then 1 else 0) + Dict.countKey rest k

/-- State of the in-memory ConversationManager: its _conversations dict. -/
abbrev CMStore : Type := Dict Conv

/-- State of the MongoDB conversations collection. -/
abbrev MStore : Type := Dict MongoDoc

/-- ConversationManager.create_conversation: store a fresh record with an
empty message list and both timestamps now. The freshly generated uuid is
passed in as conversation_id. -/
def ConversationManager.create_conversation (s : CMStore)
    (conversation_id : String) (now : Nat) : CMStore :=
  Dict.setItem s conversation_id
    { messages := [], created_at := now, updated_at := now }

/-- ConversationManager.add_message: if the id is unknown, first store a
fresh empty record under it (the forgiving-recreate branch), then append
the message dict to the record and refresh updated_at. -/
def ConversationManager.add_message (s : CMStore)
    (conversation_id role content : String) (now : Nat) : CMStore :=
  let s1 :=
    if (Dict.find? s conversation_id).isSome then s
    else Dict.setItem s conversation_id
      { messages := [], created_at := now, updated_at := now }
  Dict.updateVal s1 conversation_id (fun conv =>
    { conv with
        messages := conv.messages ++
          [{ role := role, content := content, timestamp := now }],
        updated_at := now })

/-- The slicing step messages[-max_messages:] guarded by the Python
truthiness test `if max_messages:` — None and 0 both skip the slice. -/
def applyLimit (messages : List StoredMessage) :
    Option Nat → List StoredMessage
  | none => messages
  | some k => if k = 0 then messages else messages.drop (messages.length - k)

/-- ConversationManager.get_conversation_history: empty list for an
unknown id, otherwise the stored messages (optionally only the most
recent max_messages of them) projected to ChatMessage values. -/
def ConversationManager.get_conversation_history (s : CMStore)
    (conversation_id : String) (max_messages : Option Nat) : List ChatMessage :=
  match Dict.find? s conversation_id with
  | none => []
  | some conv =>
      (applyLimit conv.messages max_messages).map
        (fun m => { role := m.role, content := m.content })

/-- ConversationManager.conversation_exists: membership in the dict. -/
def ConversationManager.conversation_exists (s : CMStore)
    (conversation_id : String) : Bool :=
  (Dict.find? s conversation_id).isSome

/-- ConversationManager.delete_conversation: remove the record and report
true when the id was present, otherwise leave the store unchanged and
report false. -/
def ConversationManager.delete_conversation (s : CMStore)
    (conversation_id : String) : CMStore × Bool :=
  if (Dict.find? s conversation_id).isSome then
    (Dict.erase s conversation_id, true)
  else
    (s, false)

/-- MongoConversationManager.create_conversation: insert a document with
an empty message list; a temporary conversation also gets
expires_at = now + ttl. The generated uuid is passed as conversation_id
and ttl stands for timedelta(hours=settings.conversation_ttl_hours). -/
def MongoConversationManager.create_conversation (ttl : Nat) (s : MStore)
    (conversation_id : String) (temporary : Bool) (now : Nat) : MStore :=
  Dict.setItem s conversation_id
    { messages := [], created_at := now, updated_at := now,
      temporary := temporary,
      expires_at := if temporary then some (now + ttl) else none }

/-- MongoConversationManager.add_message: on a miss, insert a fresh
temporary document already holding the message with
expires_at = now + ttl; on a hit, push the message, refresh updated_at,
and slide expires_at forward when the document is temporary. -/
def MongoConversationManager.add_message (ttl : Nat) (s : MStore)
    (conversation_id role content : String) (now : Nat) : MStore :=
  let message : StoredMessage :=
    { role := role, content := content, timestamp := now }
  match Dict.find? s conversation_id with
  | none =>
      Dict.setItem s conversation_id
        { messages := [message], created_at := now, updated_at := now,
          temporary := true, expires_at := some (now + ttl) }
  | some _ =>
      Dict.updateVal s conversation_id (fun c =>
        { c with
            messages := c.messages ++ [message],
            updated_at := now,
            expires_at := if c.temporary then some (now + ttl) else c.expires_at })

/-- MongoConversationManager.get_conversation_history: same shape as the
in-memory backend, reading the messages array of the document. -/
def MongoConversationManager.get_conversation_history (s : MStore)
    (conversation_id : String) (max_messages : Option Nat) : List ChatMessage :=
  match Dict.find? s conversation_id with
  | none => []
  | some conv =>
      (applyLimit conv.messages max_messages).map
        (fun m => { role := m.role, content := m.content })

/-- MongoConversationManager.conversation_exists:
count_documents on the id is positive. -/
def MongoConversationManager.conversation_exists (s : MStore)
    (conversation_id : String) : Bool :=
  decide (0 < Dict.countKey s conversation_id)

/-- The supported Groq model names (the ModelName enum). -/
inductive ModelName where
  | llama_3_1_8b_instant
  | gpt_oss_120b
  | qwen3_32b
  | groq_compound
  deriving DecidableEq, Repr

/-- The provider-facing string value of a model name. -/
def ModelName.value : ModelName → String
  | .llama_3_1_8b_instant => "llama-3.1-8b-instant"
  | .gpt_oss_120b => "openai/gpt-oss-120b"
  | .qwen3_32b => "qwen/qwen3-32b"
  | .groq_compound => "groq/compound"

/-- The Hyperparameters pydantic model: all fields optional, with the
floats modelled as rationals. -/
structure Hyperparameters where
  temperature : Option ℚ
  top_p : Option ℚ
  max_tokens : Option ℤ
  stop : Option (List String)
  deriving DecidableEq, Repr

/-- Construction-time validation of Hyperparameters, mirroring the
pydantic Field constraints (temperature in [0, 2], top_p in [0, 1],
max_tokens in [1, 32000], at most 4 stop sequences) and the documented
defaults (1.0, 1.0, 1024, None) for omitted fields. An omitted field is
passed as none; a supplied field as some of its raw value. -/
def mkHyperparameters (temperature top_p : Option ℚ) (max_tokens : Option ℤ)
    (stop : Option (List String)) : Except String Hyperparameters :=
  let t := temperature.getD 1
  if ¬ (0 ≤ t ∧ t ≤ 2) then Except.error "temperature out of range" else
  let p := top_p.getD 1
  if ¬ (0 ≤ p ∧ p ≤ 1) then Except.error "top_p out of range" else
  let m := max_tokens.getD 1024
  if ¬ (1 ≤ m ∧ m ≤ 32000) then Except.error "max_tokens out of range" else
  match stop with
  | some l =>
      if 4 < l.length then Except.error "Maximum 4 stop sequences allowed"
      else Except.ok { temperature := some t, top_p := some p,
                       max_tokens := some m, stop := some l }
  | none =>
      Except.ok { temperature := some t, top_p := some p,
                  max_tokens := some m, stop := none }

/-- The ChatRequest pydantic model. system_prompt is Optional with the
fixed persona default; conversation_id is Optional with default None. -/
structure ChatRequest where
  model : ModelName
  user_prompt : String
  system_prompt : Option String
  hyperparameters : Option Hyperparameters
  save_conversation : Bool
  conversation_id : Option String
  deriving DecidableEq, Repr

/-- The messages component of the payload built by
ChatRequest.to_messages: the loaded history (the Python truthiness test
`if conversation_history:` skips the extend for both None and an empty
list, which yields the same list either way), then a system message when
system_prompt is truthy (non-None and non-empty), then the user prompt
as a user message. -/
def ChatRequest.to_messages (req : ChatRequest)
    (conversation_history : Option (List ChatMessage)) : List ChatMessage :=
  let messages : List ChatMessage := []
  let messages :=
    match conversation_history with
    | some h => if h.isEmpty then messages else messages ++ h
    | none => messages
  let messages :=
    match req.system_prompt with
    | some sp =>
        if sp = "" then messages
        else messages ++ [{ role := "system", content := sp }]
    | none => messages
  messages ++ [{ role := "user", content := req.user_prompt }]

/-- One observable action of the generate_stream generator in
src/main.py: an SSE emission to the client transport, the accumulation
step full_response += content, or a conversation_manager.add_message
call. The accum action records both the fragment and the new accumulator
value. -/
inductive Act where
  | emitMeta (conversation_id model : String)
  | accum (content full_response : String)
  | emitFragment (content : String)
  | emitFinished
  | appendMsg (conversation_id role content : String)
  | emitError (error : String)
  deriving DecidableEq, Repr

/-- The finished flag carried by an emitted SSE event: false on a
fragment event, true on both terminal events, absent on the metadata
event and on non-emission actions. -/
def Act.finishedFlag : Act → Option Bool
  | .emitFragment _ => some false
  | .emitFinished => some true
  | .emitError _ => some true
  | _ => none

/-- Whether an action is a store append. -/
def Act.isAppend : Act → Bool
  | .appendMsg _ _ _ => true
  | _ => false

/-- The fragment content of an emitFragment action. -/
def Act.fragmentContent : Act → Option String
  | .emitFragment c => some c
  | _ => none

/-- The outcome of consuming the Gateway fragment stream: either it ends
naturally after emitting the listed fragments, or it raises after
emitting them, with the given error text. -/
inductive GatewayOutcome where
  | ok (fragments : List String)
  | err (fragments : List String) (message : String)
  deriving DecidableEq, Repr

/-- A single-quote character as a string. -/
def singleQuote : String := String.mk [Char.ofNat 39]

/-- A backslash-escaped single quote. -/
def escapedQuote : String := String.mk [Char.ofNat 92, Char.ofNat 39]

/-- The sanitization str(e).replace applied to the error text before it
is emitted in the terminal error event. -/
def sanitizeError (msg : String) : String :=
  msg.replace singleQuote escapedQuote

/-- The final accumulator value of the fragment loop: threading
full_response += content over the fragments. -/
def streamLoopFull (full_response : String) : List String → String
  | [] => full_response
  | content :: rest => streamLoopFull (full_response ++ content) rest

/-- The actions of the fragment loop body, in program order: for each
arriving fragment, first the accumulation full_response += content, then
the emission of the fragment event. -/
def streamLoopActs (full_response : String) : List String → List Act
  | [] => []
  | content :: rest =>
      Act.accum content (full_response ++ content) ::
      Act.emitFragment content ::
      streamLoopActs (full_response ++ content) rest

/-- Python truthiness of the Optional conversation_id: non-None and
non-empty. -/
def truthyId : Option String → Bool
  | none => false
  | some s => s ≠ ""

/-- The action trace of the generate_stream generator of src/main.py for
one request, given the Gateway outcome. On the normal path it emits the
metadata event, runs the fragment loop, emits the finished event, and
only then performs the store appends when save_conversation and
conversation_id are truthy (system prompt first when truthy, then user
prompt, then the accumulated assistant text). On the error path the
except handler emits the terminal error event and no append happens. -/
def generate_stream (save_conversation : Bool) (system_prompt : Option String)
    (user_prompt : String) (conversation_id : Option String) (model : String)
    (outcome : GatewayOutcome) : List Act :=
  Act.emitMeta (conversation_id.getD "") model ::
  match outcome with
  | GatewayOutcome.ok frags =>
      streamLoopActs "" frags ++ [Act.emitFinished] ++
        (if save_conversation && truthyId conversation_id then
          (match system_prompt with
           | some sp =>
               if sp = "" then []
               else [Act.appendMsg (conversation_id.getD "") "system" sp]
           | none => []) ++
          [Act.appendMsg (conversation_id.getD "") "user" user_prompt,
           Act.appendMsg (conversation_id.getD "") "assistant"
             (streamLoopFull "" frags)]
        else [])
  | GatewayOutcome.err frags msg =>
      streamLoopActs "" frags ++ [Act.emitError (sanitizeError msg)]

/-- Replay the store appends of a trace against the in-memory
ConversationManager, all at the same instant now. -/
def applyActs (s : CMStore) (now : Nat) : List Act → CMStore
  | [] => s
  | Act.appendMsg cid role content :: rest =>
      applyActs (ConversationManager.add_message s cid role content now) now rest
  | _ :: rest => applyActs s now rest

/-- The fragments emitted to the client, in emission order. -/
def emittedFragments (tr : List Act) : List String :=
  tr.filterMap Act.fragmentContent

/-- The store appends performed by a trace, in order, as
(conversation_id, role, content) triples. -/
def appendActs (tr : List Act) : List (String × String × String) :=
  tr.filterMap (fun a =>
    match a with
    | Act.appendMsg cid role content => some (cid, role, content)
    | _ => none)

/-- Concatenation of a list of fragments in order. -/
def concatAll (l : List String) : String := String.join l

/-- Checks that every fragment emission in a trace is immediately
preceded by the accumulation of that same fragment: the ordering
guarantee that a fragment is captured in the accumulator before it is
emitted to the transport. -/
def accumBeforeEmit : List Act → Bool
  | [] => true
  | Act.accum c _ :: Act.emitFragment c2 :: rest =>
      c == c2 && accumBeforeEmit rest
  | Act.emitFragment _ :: _ => false
  | _ :: rest => accumBeforeEmit rest

/-- Checks that every store append in a trace occurs before the finished
marker: once emitFinished is seen, no append may follow. -/
def appendsBeforeFinished : List Act → Bool
  | [] => true
  | Act.emitFinished :: rest => !(rest.any Act.isAppend)
  | _ :: rest => appendsBeforeFinished rest

/-- Checks that the finished marker occurs before every store append:
scanning the trace, the first of the two kinds encountered is the
finished marker. -/
def finishedBeforeAppends : List Act → Bool
  | [] => true
  | Act.appendMsg _ _ _ :: _ => false
  | Act.emitFinished :: _ => true
  | _ :: rest => finishedBeforeAppends rest

/-- The most recent k entries of a list, as the specification words it. -/
def lastK {α : Type} (k : Nat) (l : List α) : List α :=
  (l.reverse.take k).reverse

/-- Repeated add_message calls against the in-memory store, one per
(role, content) pair, in list order, all at the same instant. -/
def appendAll (s : CMStore) (conversation_id : String)
    (msgs : List (String × String)) (now : Nat) : CMStore :=
  msgs.foldl
    (fun st p => ConversationManager.add_message st conversation_id p.1 p.2 now) s

/-- Repeated add_message calls against the MongoDB store. -/
def mongoAppendAll (ttl : Nat) (s : MStore) (conversation_id : String)
    (msgs : List (String × String)) (now : Nat) : MStore :=
  msgs.foldl
    (fun st p =>
      MongoConversationManager.add_message ttl st conversation_id p.1 p.2 now) s

theorem Dict.find?_updateVal {α : Type} (s : Dict α) (k : String) (f : α → α) :
    Dict.find? (Dict.updateVal s k f) k = (Dict.find? s k).map f := by
  induction s with
  | nil => rfl
  | cons e rest ih =>
      by_cases h : e.1 = k
      · simp [Dict.updateVal, Dict.find?, h]
      · simpa [Dict.updateVal, Dict.find?, h] using ih

theorem Dict.find?_append {α : Type} (s t : Dict α) (k : String) :
    Dict.find? (s ++ t) k =
      match Dict.find? s k with
      | some v => some v
      | none => Dict.find? t k := by
  induction s with
  | nil => rfl
  | cons e rest ih =>
      by_cases h : e.1 = k
      · simp [Dict.find?, h]
      · simpa [Dict.find?, h] using ih

theorem Dict.find?_setItem_self {α : Type} (s : Dict α) (k : String) (v : α) :
    Dict.find? (Dict.setItem s k v) k = some v := by
  unfold Dict.setItem
  by_cases h : (Dict.find? s k).isSome
  · rw [if_pos h]
    have h2 := Dict.find?_updateVal s k (fun _ => v)
    unfold Dict.updateVal at h2
    rw [h2]
    cases h3 : Dict.find? s k with
    | none => rw [h3] at h; simp at h
    | some a => rfl
  · rw [if_neg h]
    rw [Dict.find?_append]
    cases h3 : Dict.find? s k with
    | none => simp [Dict.find?]
    | some a => rw [h3] at h; simp at h

theorem Dict.find?_erase_self {α : Type} (s : Dict α) (k : String) :
    Dict.find? (Dict.erase s k) k = none := by
  induction s with
  | nil => rfl
  | cons e rest ih =>
      by_cases h : e.1 = k
      · simpa [Dict.erase, h] using ih
      · simpa [Dict.erase, Dict.find?, h] using ih

theorem Dict.countKey_pos_iff {α : Type} (s : Dict α) (k : String) :
    0 < Dict.countKey s k ↔ (Dict.find? s k).isSome := by
  induction s with
  | nil => simp [Dict.countKey, Dict.find?]
  | cons e rest ih =>
      by_cases h : e.1 = k
      · simp [Dict.countKey, Dict.find?, h]
      · simpa [Dict.countKey, Dict.find?, h] using ih

theorem ConversationManager.find?_add_message (s : CMStore)
    (cid role content : String) (now : Nat) :
    Dict.find? (ConversationManager.add_message s cid role content now) cid =
      some (match Dict.find? s cid with
            | some conv =>
                { conv with
                    messages := conv.messages ++
                      [{ role := role, content := content, timestamp := now }],
                    updated_at := now }
            | none =>
                { messages := [{ role := role, content := content, timestamp := now }],
                  created_at := now, updated_at := now }) := by
  unfold ConversationManager.add_message
  cases h : Dict.find? s cid with
  | some conv => simp [Dict.find?_updateVal, h]
  | none => simp [Dict.find?_updateVal, Dict.find?_setItem_self, h]

theorem ConversationManager.history_add (s : CMStore)
    (cid role content : String) (now : Nat) :
    ConversationManager.get_conversation_history
        (ConversationManager.add_message s cid role content now) cid none =
      ConversationManager.get_conversation_history s cid none ++
        [{ role := role, content := content }] := by
  unfold ConversationManager.get_conversation_history
  rw [ConversationManager.find?_add_message]
  cases h : Dict.find? s cid with
  | some conv => simp [applyLimit]
  | none => simp [applyLimit]

theorem ConversationManager.exists_add (s : CMStore)
    (cid role content : String) (now : Nat) :
    ConversationManager.conversation_exists
        (ConversationManager.add_message s cid role content now) cid = true := by
  unfold ConversationManager.conversation_exists
  rw [ConversationManager.find?_add_message]
  rfl

theorem MongoConversationManager.find?_add_message_mongo (ttl : Nat) (s : MStore)
    (cid role content : String) (now : Nat) :
    Dict.find? (MongoConversationManager.add_message ttl s cid role content now) cid =
      some (match Dict.find? s cid with
            | some conv =>
                { conv with
                    messages := conv.messages ++
                      [{ role := role, content := content, timestamp := now }],
                    updated_at := now,
                    expires_at :=
                      if conv.temporary then some (now + ttl) else conv.expires_at }
            | none =>
                { messages := [{ role := role, content := content, timestamp := now }],
                  created_at := now, updated_at := now,
                  temporary := true, expires_at := some (now + ttl) }) := by
  unfold MongoConversationManager.add_message
  cases h : Dict.find? s cid with
  | some conv => simp [Dict.find?_updateVal, h]
  | none => rw [Dict.find?_setItem_self]

theorem MongoConversationManager.history_add_mongo (ttl : Nat) (s : MStore)
    (cid role content : String) (now : Nat) :
    MongoConversationManager.get_conversation_history
        (MongoConversationManager.add_message ttl s cid role content now) cid none =
      MongoConversationManager.get_conversation_history s cid none ++
        [{ role := role, content := content }] := by
  unfold MongoConversationManager.get_conversation_history
  rw [MongoConversationManager.find?_add_message_mongo]
  cases h : Dict.find? s cid with
  | some conv => simp [applyLimit]
  | none => simp [applyLimit]

theorem MongoConversationManager.exists_add_mongo (ttl : Nat) (s : MStore)
    (cid role content : String) (now : Nat) :
    MongoConversationManager.conversation_exists
        (MongoConversationManager.add_message ttl s cid role content now) cid = true := by
  unfold MongoConversationManager.conversation_exists
  have h := MongoConversationManager.find?_add_message_mongo ttl s cid role content now
  have hp : (Dict.find?
      (MongoConversationManager.add_message ttl s cid role content now) cid).isSome := by
    rw [h]; rfl
  rw [← Dict.countKey_pos_iff] at hp
  simpa using hp

theorem take_reverse_eq_drop {α : Type} (m : List α) (k : Nat) :
    (m.take k).reverse = m.reverse.drop (m.length - k) := by
  induction m generalizing k with
  | nil => simp
  | cons a m ih =>
      cases k with
      | zero =>
          simp only [List.take_zero, List.reverse_nil, List.reverse_cons,
            Nat.sub_zero]
          rw [show (a :: m).length = m.reverse.length + 1 by simp]
          rw [List.drop_eq_nil_of_le (by simp)]
      | succ k =>
          rw [List.take_succ_cons, List.reverse_cons, List.reverse_cons,
            show (a :: m).length - (k + 1) = m.length - k by
              simp only [List.length_cons]; omega,
            List.drop_append_of_le_length (by simp [Nat.sub_le m.length k]),
            ih]

theorem lastK_eq_drop {α : Type} (l : List α) (k : Nat) :
    lastK k l = l.drop (l.length - k) := by
  unfold lastK
  rw [take_reverse_eq_drop l.reverse k]
  simp

theorem ConversationManager.history_limit (s : CMStore) (cid : String)
    (k : Nat) (hk : k ≠ 0) :
    ConversationManager.get_conversation_history s cid (some k) =
      lastK k (ConversationManager.get_conversation_history s cid none) := by
  unfold ConversationManager.get_conversation_history
  cases h : Dict.find? s cid with
  | none => simp [lastK]
  | some conv =>
      simp only [applyLimit, if_neg hk]
      rw [lastK_eq_drop, ← List.map_drop]
      simp

theorem MongoConversationManager.history_limit_mongo (s : MStore) (cid : String)
    (k : Nat) (hk : k ≠ 0) :
    MongoConversationManager.get_conversation_history s cid (some k) =
      lastK k (MongoConversationManager.get_conversation_history s cid none) := by
  unfold MongoConversationManager.get_conversation_history
  cases h : Dict.find? s cid with
  | none => simp [lastK]
  | some conv =>
      simp only [applyLimit, if_neg hk]
      rw [lastK_eq_drop, ← List.map_drop]
      simp

theorem ConversationManager.history_appendAll (s : CMStore) (cid : String)
    (msgs : List (String × String)) (now : Nat) :
    ConversationManager.get_conversation_history
        (appendAll s cid msgs now) cid none =
      ConversationManager.get_conversation_history s cid none ++
        msgs.map (fun p => { role := p.1, content := p.2 }) := by
  induction msgs generalizing s with
  | nil => simp [appendAll]
  | cons p rest ih =>
      show ConversationManager.get_conversation_history
          (appendAll (ConversationManager.add_message s cid p.1 p.2 now)
            cid rest now) cid none = _
      rw [ih, ConversationManager.history_add]
      simp

theorem MongoConversationManager.history_appendAll_mongo (ttl : Nat) (s : MStore)
    (cid : String) (msgs : List (String × String)) (now : Nat) :
    MongoConversationManager.get_conversation_history
        (mongoAppendAll ttl s cid msgs now) cid none =
      MongoConversationManager.get_conversation_history s cid none ++
        msgs.map (fun p => { role := p.1, content := p.2 }) := by
  induction msgs generalizing s with
  | nil => simp [mongoAppendAll]
  | cons p rest ih =>
      show MongoConversationManager.get_conversation_history
          (mongoAppendAll ttl
            (MongoConversationManager.add_message ttl s cid p.1 p.2 now)
            cid rest now) cid none = _
      rw [ih, MongoConversationManager.history_add_mongo]
      simp

theorem streamLoopFull_eq_foldl (frags : List String) (acc : String) :
    streamLoopFull acc frags = List.foldl (· ++ ·) acc frags := by
  induction frags generalizing acc with
  | nil => rfl
  | cons f rest ih => simp [streamLoopFull, List.foldl, ih]

theorem streamLoopFull_eq_concatAll (frags : List String) :
    streamLoopFull "" frags = concatAll frags := by
  rw [streamLoopFull_eq_foldl]
  rfl

theorem emittedFragments_streamLoopActs (frags : List String) (acc : String)
    (tail : List Act) :
    (streamLoopActs acc frags ++ tail).filterMap Act.fragmentContent =
      frags ++ tail.filterMap Act.fragmentContent := by
  induction frags generalizing acc with
  | nil => simp [streamLoopActs]
  | cons f rest ih =>
      simp [streamLoopActs, Act.fragmentContent, ih]

theorem applyActs_append (s : CMStore) (now : Nat) (l1 l2 : List Act) :
    applyActs s now (l1 ++ l2) = applyActs (applyActs s now l1) now l2 := by
  induction l1 generalizing s with
  | nil => rfl
  | cons a rest ih => cases a <;> simp [applyActs, ih]

theorem applyActs_streamLoopActs (s : CMStore) (now : Nat)
    (frags : List String) (acc : String) :
    applyActs s now (streamLoopActs acc frags) = s := by
  induction frags generalizing acc with
  | nil => rfl
  | cons f rest ih => simp [streamLoopActs, applyActs, ih]

theorem accumBeforeEmit_streamLoopActs (frags : List String) (acc : String)
    (tail : List Act) :
    accumBeforeEmit (streamLoopActs acc frags ++ tail) = accumBeforeEmit tail := by
  induction frags generalizing acc with
  | nil => simp [streamLoopActs]
  | cons f rest ih =>
      simp [streamLoopActs, accumBeforeEmit, ih]

theorem finishedBeforeAppends_streamLoopActs (frags : List String)
    (acc : String) (tail : List Act) :
    finishedBeforeAppends (streamLoopActs acc frags ++ tail) =
      finishedBeforeAppends tail := by
  induction frags generalizing acc with
  | nil => simp [streamLoopActs]
  | cons f rest ih =>
      simp [streamLoopActs, finishedBeforeAppends, ih]

theorem appendActs_streamLoopActs (frags : List String) (acc : String)
    (tail : List Act) :
    appendActs (streamLoopActs acc frags ++ tail) = appendActs tail := by
  induction frags generalizing acc with
  | nil => simp [streamLoopActs]
  | cons f rest ih =>
      simp only [streamLoopActs, List.cons_append, appendActs, List.filterMap]
      exact ih (acc ++ f)

/-- C9: round-trip laws of the in-memory store: create followed by
history on the created id yields the empty sequence; delete followed by
exists yields false for every id; delete on an id missing from the store
returns false instead of failing. -/
theorem C9_store_round_trip (s s2 s3 : CMStore) (cid cid2 cid3 : String)
    (now : Nat) :
    ConversationManager.get_conversation_history
        (ConversationManager.create_conversation s cid now) cid none = []
  ∧ ConversationManager.conversation_exists
        (ConversationManager.delete_conversation s2 cid2).1 cid2 = false
  ∧ (Dict.find? s3 cid3 = none →
        (ConversationManager.delete_conversation s3 cid3).2 = false) := by
  refine ⟨?_, ?_, ?_⟩
  · unfold ConversationManager.get_conversation_history
      ConversationManager.create_conversation
    rw [Dict.find?_setItem_self]
    simp [applyLimit]
  · unfold ConversationManager.delete_conversation
      ConversationManager.conversation_exists
    by_cases h : (Dict.find? s2 cid2).isSome
    · rw [if_pos h]
      simp [Dict.find?_erase_self]
    · rw [if_neg h]
      simpa using h
  · intro h
    unfold ConversationManager.delete_conversation
    rw [h]
    simp

/-- C9 witness: the three laws at concrete inputs; the third hypothesis
is discharged on the empty store. -/
theorem C9_store_round_trip_witness :
    ConversationManager.get_conversation_history
        (ConversationManager.create_conversation ([] : CMStore) "a" 0) "a" none = []
  ∧ ConversationManager.conversation_exists
        (ConversationManager.delete_conversation
          ([("b", { messages := [], created_at := 0, updated_at := 0 })] : CMStore)
          "b").1 "b" = false
  ∧ (Dict.find? ([] : CMStore) "c" = none →
        (ConversationManager.delete_conversation ([] : CMStore) "c").2 = false) :=
  C9_store_round_trip []
    [("b", { messages := [], created_at := 0, updated_at := 0 })] [] "a" "b" "c" 0

/-- C10: in both backends a limit of 0 is treated by the truthiness test
as no limit at all, so history with limit 0 returns the full stored
sequence. -/
theorem C10_limit_zero_is_no_limit (s : CMStore) (ms : MStore) (cid : String) :
    ConversationManager.get_conversation_history s cid (some 0) =
        ConversationManager.get_conversation_history s cid none
  ∧ MongoConversationManager.get_conversation_history ms cid (some 0) =
        MongoConversationManager.get_conversation_history ms cid none := by
  constructor
  · unfold ConversationManager.get_conversation_history
    cases Dict.find? s cid <;> simp [applyLimit]
  · unfold MongoConversationManager.get_conversation_history
    cases Dict.find? ms cid <;> simp [applyLimit]

/-- C4 counterexample: a request whose system_prompt is present but is
the empty string. The Python truthiness test skips the system message,
so the built sequence is not history plus the present system message
plus the user message, refuting the claim as stated. -/
theorem C4_counterexample :
    ChatRequest.to_messages
        { model := ModelName.llama_3_1_8b_instant, user_prompt := "Hi",
          system_prompt := some "", hyperparameters := none,
          save_conversation := true, conversation_id := none }
        (some [{ role := "assistant", content := "prev" }]) ≠
      [{ role := "assistant", content := "prev" }] ++
        [{ role := "system", content := "" }] ++
        [{ role := "user", content := "Hi" }] := by
  decide

/-- C4 amended: the message sequence sent to the provider is the loaded
history, then a system message carrying the system prompt when one is
present and non-empty, then the user prompt as the last element; the
system prompt is placed after the history, never before it. -/
theorem C4_to_messages_order (req : ChatRequest)
    (h : Option (List ChatMessage)) :
    ChatRequest.to_messages req h =
        (h.getD []) ++
          (match req.system_prompt with
           | some sp =>
               if sp = "" then []
               else [{ role := "system", content := sp }]
           | none => []) ++
          [{ role := "user", content := req.user_prompt }]
  ∧ (ChatRequest.to_messages req h).getLast? =
        some { role := "user", content := req.user_prompt } := by
  have hmain : ChatRequest.to_messages req h =
      (h.getD []) ++
        (match req.system_prompt with
         | some sp =>
             if sp = "" then []
             else [{ role := "system", content := sp }]
         | none => []) ++
        [{ role := "user", content := req.user_prompt }] := by
    unfold ChatRequest.to_messages
    cases h with
    | none => cases req.system_prompt with
        | none => simp
        | some sp => by_cases hsp : sp = "" <;> simp [hsp]
    | some hist =>
        by_cases hh : hist.isEmpty
        · have : hist = [] := List.isEmpty_iff.mp hh
          subst this
          cases req.system_prompt with
          | none => simp
          | some sp => by_cases hsp : sp = "" <;> simp [hsp]
        · cases req.system_prompt with
          | none => simp [hh]
          | some sp => by_cases hsp : sp = "" <;> simp [hh, hsp]
  refine ⟨hmain, ?_⟩
  rw [hmain]
  rw [List.getLast?_concat]

/-- C8: construction of a generation-parameter set succeeds for every
in-bounds combination, applies the documented defaults for omitted
fields, and fails at construction time for each kind of out-of-bounds
value. -/
theorem C8_hyperparameters_validation :
    (∀ (t p : ℚ) (m : ℤ) (st : List String),
        0 ≤ t → t ≤ 2 → 0 ≤ p → p ≤ 1 → 1 ≤ m → m ≤ 32000 → st.length ≤ 4 →
        mkHyperparameters (some t) (some p) (some m) (some st) =
          Except.ok { temperature := some t, top_p := some p,
                      max_tokens := some m, stop := some st })
  ∧ mkHyperparameters none none none none =
      Except.ok { temperature := some 1, top_p := some 1,
                  max_tokens := some 1024, stop := none }
  ∧ (∀ t : ℚ, 2 < t →
        mkHyperparameters (some t) none none none =
          Except.error "temperature out of range")
  ∧ (∀ t : ℚ, t < 0 →
        mkHyperparameters (some t) none none none =
          Except.error "temperature out of range")
  ∧ (∀ p : ℚ, 1 < p →
        mkHyperparameters none (some p) none none =
          Except.error "top_p out of range")
  ∧ (∀ p : ℚ, p < 0 →
        mkHyperparameters none (some p) none none =
          Except.error "top_p out of range")
  ∧ (∀ m : ℤ, m < 1 →
        mkHyperparameters none none (some m) none =
          Except.error "max_tokens out of range")
  ∧ (∀ m : ℤ, 32000 < m →
        mkHyperparameters none none (some m) none =
          Except.error "max_tokens out of range")
  ∧ (∀ st : List String, 4 < st.length →
        mkHyperparameters none none none (some st) =
          Except.error "Maximum 4 stop sequences allowed") := by
  refine ⟨?_, ?_, ?_, ?_, ?_, ?_, ?_, ?_, ?_⟩
  · intro t p m st ht0 ht2 hp0 hp1 hm1 hm2 hst
    unfold mkHyperparameters
    simp only [Option.getD_some]
    rw [if_neg (not_not_intro ⟨ht0, ht2⟩), if_neg (not_not_intro ⟨hp0, hp1⟩),
      if_neg (not_not_intro ⟨hm1, hm2⟩)]
    simp [Nat.not_lt.mpr hst]
  · unfold mkHyperparameters
    simp only [Option.getD_none]
    rw [if_neg (not_not_intro (by norm_num)), if_neg (not_not_intro (by norm_num)),
      if_neg (not_not_intro (by norm_num))]
  · intro t ht
    unfold mkHyperparameters
    simp only [Option.getD_some]
    rw [if_pos (fun hc => absurd ht (not_lt.mpr hc.2))]
  · intro t ht
    unfold mkHyperparameters
    simp only [Option.getD_some]
    rw [if_pos (fun hc => absurd hc.1 (not_le.mpr ht))]
  · intro p hp
    unfold mkHyperparameters
    simp only [Option.getD_some, Option.getD_none]
    rw [if_neg (not_not_intro (by norm_num)),
      if_pos (fun hc => absurd hp (not_lt.mpr hc.2))]
  · intro p hp
    unfold mkHyperparameters
    simp only [Option.getD_some, Option.getD_none]
    rw [if_neg (not_not_intro (by norm_num)),
      if_pos (fun hc => absurd hc.1 (not_le.mpr hp))]
  · intro m hm
    unfold mkHyperparameters
    simp only [Option.getD_some, Option.getD_none]
    rw [if_neg (not_not_intro (by norm_num)), if_neg (not_not_intro (by norm_num)),
      if_pos (fun hc => absurd hc.1 (not_le.mpr hm))]
  · intro m hm
    unfold mkHyperparameters
    simp only [Option.getD_some, Option.getD_none]
    rw [if_neg (not_not_intro (by norm_num)), if_neg (not_not_intro (by norm_num)),
      if_pos (fun hc => absurd hm (not_lt.mpr hc.2))]
  · intro st hst
    unfold mkHyperparameters
    simp only [Option.getD_none]
    rw [if_neg (not_not_intro (by norm_num)), if_neg (not_not_intro (by norm_num)),
      if_neg (not_not_intro (by norm_num))]
    simp [hst]

/-- C8 witness: an in-bounds construction succeeds, temperature 2.5 and
five stop sequences are rejected, and omitted fields receive the
documented defaults. -/
theorem C8_hyperparameters_validation_witness :
    mkHyperparameters (some (1/2)) (some (1/2)) (some 2048) (some ["a"]) =
        Except.ok { temperature := some (1/2), top_p := some (1/2),
                    max_tokens := some 2048, stop := some ["a"] }
  ∧ mkHyperparameters none none none none =
        Except.ok { temperature := some 1, top_p := some 1,
                    max_tokens := some 1024, stop := none }
  ∧ mkHyperparameters (some (5/2)) none none none =
        Except.error "temperature out of range"
  ∧ mkHyperparameters none none none (some ["a", "b", "c", "d", "e"]) =
        Except.error "Maximum 4 stop sequences allowed" :=
  ⟨C8_hyperparameters_validation.1 (1/2) (1/2) 2048 ["a"] (by norm_num)
      (by norm_num) (by norm_num) (by norm_num) (by norm_num) (by norm_num)
      (by norm_num),
   C8_hyperparameters_validation.2.1,
   C8_hyperparameters_validation.2.2.1 (5/2) (by norm_num),
   C8_hyperparameters_validation.2.2.2.2.2.2.2.2 ["a", "b", "c", "d", "e"]
     (by norm_num)⟩

/-- C5: append never fails, in either backend. After add_message the id
exists and its history ends with the appended role and content; on an
unknown id the call behaves as creating a fresh conversation under that
same id (temporary, with a fresh expiry, in the durable backend) and
then appending; on a known id it appends the message and refreshes
updated_at. -/
theorem C5_add_message_total (s : CMStore) (ms : MStore)
    (cid role content : String) (now ttl : Nat) :
    ConversationManager.conversation_exists
        (ConversationManager.add_message s cid role content now) cid = true
  ∧ (ConversationManager.get_conversation_history
        (ConversationManager.add_message s cid role content now) cid
        none).getLast? = some { role := role, content := content }
  ∧ (Dict.find? s cid = none →
      Dict.find? (ConversationManager.add_message s cid role content now) cid =
        some { messages := [{ role := role, content := content, timestamp := now }],
               created_at := now, updated_at := now })
  ∧ (∀ conv, Dict.find? s cid = some conv →
      Dict.find? (ConversationManager.add_message s cid role content now) cid =
        some { conv with
                 messages := conv.messages ++
                   [{ role := role, content := content, timestamp := now }],
                 updated_at := now })
  ∧ MongoConversationManager.conversation_exists
        (MongoConversationManager.add_message ttl ms cid role content now) cid = true
  ∧ (MongoConversationManager.get_conversation_history
        (MongoConversationManager.add_message ttl ms cid role content now) cid
        none).getLast? = some { role := role, content := content }
  ∧ (Dict.find? ms cid = none →
      Dict.find? (MongoConversationManager.add_message ttl ms cid role content now)
          cid =
        some { messages := [{ role := role, content := content, timestamp := now }],
               created_at := now, updated_at := now,
               temporary := true, expires_at := some (now + ttl) })
  ∧ (∀ conv, Dict.find? ms cid = some conv →
      Dict.find? (MongoConversationManager.add_message ttl ms cid role content now)
          cid =
        some { conv with
                 messages := conv.messages ++
                   [{ role := role, content := content, timestamp := now }],
                 updated_at := now,
                 expires_at :=
                   if conv.temporary then some (now + ttl) else conv.expires_at }) := by
  refine ⟨ConversationManager.exists_add s cid role content now, ?_, ?_, ?_,
    MongoConversationManager.exists_add_mongo ttl ms cid role content now, ?_, ?_, ?_⟩
  · rw [ConversationManager.history_add, List.getLast?_concat]
  · intro h
    rw [ConversationManager.find?_add_message, h]
  · intro conv h
    rw [ConversationManager.find?_add_message, h]
  · rw [MongoConversationManager.history_add_mongo, List.getLast?_concat]
  · intro h
    rw [MongoConversationManager.find?_add_message_mongo, h]
  · intro conv h
    rw [MongoConversationManager.find?_add_message_mongo, h]

/-- C5 witness: the recreate-on-miss branch on empty stores and the
known-id branch on singleton stores, at concrete inputs. -/
theorem C5_add_message_total_witness :
    ConversationManager.conversation_exists
        (ConversationManager.add_message ([] : CMStore) "c" "user" "hi" 3) "c" = true
  ∧ (ConversationManager.get_conversation_history
        (ConversationManager.add_message ([] : CMStore) "c" "user" "hi" 3) "c"
        none).getLast? = some { role := "user", content := "hi" }
  ∧ (Dict.find? ([] : CMStore) "c" = none →
      Dict.find? (ConversationManager.add_message ([] : CMStore) "c" "user" "hi" 3)
          "c" =
        some { messages := [{ role := "user", content := "hi", timestamp := 3 }],
               created_at := 3, updated_at := 3 })
  ∧ (∀ conv, Dict.find? ([] : CMStore) "c" = some conv →
      Dict.find? (ConversationManager.add_message ([] : CMStore) "c" "user" "hi" 3)
          "c" =
        some { conv with
                 messages := conv.messages ++
                   [{ role := "user", content := "hi", timestamp := 3 }],
                 updated_at := 3 })
  ∧ MongoConversationManager.conversation_exists
        (MongoConversationManager.add_message 2 ([] : MStore) "c" "user" "hi" 3)
        "c" = true
  ∧ (MongoConversationManager.get_conversation_history
        (MongoConversationManager.add_message 2 ([] : MStore) "c" "user" "hi" 3) "c"
        none).getLast? = some { role := "user", content := "hi" }
  ∧ (Dict.find? ([] : MStore) "c" = none →
      Dict.find? (MongoConversationManager.add_message 2 ([] : MStore) "c" "user"
          "hi" 3) "c" =
        some { messages := [{ role := "user", content := "hi", timestamp := 3 }],
               created_at := 3, updated_at := 3,
               temporary := true, expires_at := some (3 + 2) })
  ∧ (∀ conv, Dict.find? ([] : MStore) "c" = some conv →
      Dict.find? (MongoConversationManager.add_message 2 ([] : MStore) "c" "user"
          "hi" 3) "c" =
        some { conv with
                 messages := conv.messages ++
                   [{ role := "user", content := "hi", timestamp := 3 }],
                 updated_at := 3,
                 expires_at :=
                   if conv.temporary then some (3 + 2) else conv.expires_at }) :=
  C5_add_message_total [] [] "c" "user" "hi" 3 2

/-- C6 counterexample: after one append (N = 1) the claim as stated also
covers k = 0 < N, where history with limit 0 should return the last zero
messages, i.e. the empty sequence; the code instead treats 0 as falsy
and returns the full single-message sequence. -/
theorem C6_counterexample :
    ConversationManager.get_conversation_history
        (ConversationManager.add_message ([] : CMStore) "c" "user" "hi" 0) "c"
        (some 0) ≠
      lastK 0 (ConversationManager.get_conversation_history
        (ConversationManager.add_message ([] : CMStore) "c" "user" "hi" 0) "c"
        none) := by
  decide

/-- C6 amended: starting from an id unknown to either backend, after
append has been called N times history returns exactly those N messages
in call order; history with limit k for every k with 0 < k < N returns
exactly the last k of them; and history on an unknown id returns the
empty sequence rather than an error. -/
theorem C6_history_in_order (s : CMStore) (ms : MStore) (cid : String)
    (msgs : List (String × String)) (now ttl : Nat)
    (hmiss : Dict.find? s cid = none) (hmmiss : Dict.find? ms cid = none) :
    ConversationManager.get_conversation_history (appendAll s cid msgs now) cid
        none = msgs.map (fun p => { role := p.1, content := p.2 })
  ∧ (∀ k, 0 < k → k < msgs.length →
      ConversationManager.get_conversation_history (appendAll s cid msgs now) cid
          (some k) =
        lastK k (msgs.map (fun p => { role := p.1, content := p.2 })))
  ∧ MongoConversationManager.get_conversation_history
        (mongoAppendAll ttl ms cid msgs now) cid none =
      msgs.map (fun p => { role := p.1, content := p.2 })
  ∧ (∀ k, 0 < k → k < msgs.length →
      MongoConversationManager.get_conversation_history
          (mongoAppendAll ttl ms cid msgs now) cid (some k) =
        lastK k (msgs.map (fun p => { role := p.1, content := p.2 })))
  ∧ ConversationManager.get_conversation_history s cid none = []
  ∧ MongoConversationManager.get_conversation_history ms cid none = [] := by
  have hempty : ConversationManager.get_conversation_history s cid none = [] := by
    unfold ConversationManager.get_conversation_history
    rw [hmiss]
  have hmempty : MongoConversationManager.get_conversation_history ms cid none = [] := by
    unfold MongoConversationManager.get_conversation_history
    rw [hmmiss]
  have hfull : ConversationManager.get_conversation_history
      (appendAll s cid msgs now) cid none =
      msgs.map (fun p => { role := p.1, content := p.2 }) := by
    rw [ConversationManager.history_appendAll, hempty]
    simp
  have hmfull : MongoConversationManager.get_conversation_history
      (mongoAppendAll ttl ms cid msgs now) cid none =
      msgs.map (fun p => { role := p.1, content := p.2 }) := by
    rw [MongoConversationManager.history_appendAll_mongo, hmempty]
    simp
  refine ⟨hfull, ?_, hmfull, ?_, hempty, hmempty⟩
  · intro k hk _
    rw [ConversationManager.history_limit _ _ _ (Nat.pos_iff_ne_zero.mp hk), hfull]
  · intro k hk _
    rw [MongoConversationManager.history_limit_mongo _ _ _ (Nat.pos_iff_ne_zero.mp hk),
      hmfull]

/-- C6 witness: three appends to a fresh id in each backend; the full
history is the three messages in call order and limit 2 returns the last
two. -/
theorem C6_history_in_order_witness :
    (Dict.find? ([] : CMStore) "c" = none ∧ Dict.find? ([] : MStore) "c" = none)
  ∧ (ConversationManager.get_conversation_history
        (appendAll ([] : CMStore) "c"
          [("system", "sys"), ("user", "hi"), ("assistant", "yo")] 0) "c" none =
      [{ role := "system", content := "sys" }, { role := "user", content := "hi" },
       { role := "assistant", content := "yo" }]
    ∧ ConversationManager.get_conversation_history
        (appendAll ([] : CMStore) "c"
          [("system", "sys"), ("user", "hi"), ("assistant", "yo")] 0) "c"
          (some 2) =
      lastK 2 [{ role := "system", content := "sys" },
        { role := "user", content := "hi" },
        ({ role := "assistant", content := "yo" } : ChatMessage)]) := by
  have h := C6_history_in_order ([] : CMStore) ([] : MStore) "c"
    [("system", "sys"), ("user", "hi"), ("assistant", "yo")] 0 2 rfl rfl
  refine ⟨⟨rfl, rfl⟩, ?_, ?_⟩
  · have := h.1
    simpa using this
  · have := h.2.1 2 (by decide) (by decide)
    simpa using this

/-- C7: in the durable backend every append to a temporary conversation
recomputes expires_at to now + TTL, so across successive appends at
strictly increasing instants the expiry instant strictly increases: a
sliding inactivity window, not a fixed lifetime. -/
theorem C7_expiry_slides (ttl : Nat) (s : MStore) (cid : String)
    (role1 content1 role2 content2 : String) (now1 now2 : Nat) (conv : MongoDoc)
    (hfind : Dict.find? s cid = some conv) (htemp : conv.temporary = true)
    (hlt : now1 < now2) :
    ∃ d1 d2,
      Dict.find? (MongoConversationManager.add_message ttl s cid role1 content1 now1)
          cid = some d1
    ∧ Dict.find?
          (MongoConversationManager.add_message ttl
            (MongoConversationManager.add_message ttl s cid role1 content1 now1)
            cid role2 content2 now2) cid = some d2
    ∧ d1.temporary = true
    ∧ d1.expires_at = some (now1 + ttl)
    ∧ d2.expires_at = some (now2 + ttl)
    ∧ now1 + ttl < now2 + ttl := by
  have h1 := MongoConversationManager.find?_add_message_mongo ttl s cid role1 content1 now1
  rw [hfind] at h1
  simp only [htemp, if_true] at h1
  have h2 := MongoConversationManager.find?_add_message_mongo ttl
    (MongoConversationManager.add_message ttl s cid role1 content1 now1)
    cid role2 content2 now2
  rw [h1] at h2
  simp only [if_true] at h2
  exact ⟨_, _, h1, h2, rfl, rfl, rfl, by omega⟩

/-- C7 witness: two appends at instants 1 and 3 to a temporary
conversation with TTL 2 produce expiry instants 3 and 5. -/
theorem C7_expiry_slides_witness :
    ∃ d1 d2,
      Dict.find? (MongoConversationManager.add_message 2
          [("c", { messages := [], created_at := 0, updated_at := 0,
                   temporary := true, expires_at := some 2 })] "c" "user" "hi" 1)
          "c" = some d1
    ∧ Dict.find?
          (MongoConversationManager.add_message 2
            (MongoConversationManager.add_message 2
              [("c", { messages := [], created_at := 0, updated_at := 0,
                       temporary := true, expires_at := some 2 })] "c" "user" "hi" 1)
            "c" "assistant" "yo" 3) "c" = some d2
    ∧ d1.temporary = true
    ∧ d1.expires_at = some (1 + 2)
    ∧ d2.expires_at = some (3 + 2)
    ∧ 1 + 2 < 3 + 2 :=
  C7_expiry_slides 2
    [("c", { messages := [], created_at := 0, updated_at := 0,
             temporary := true, expires_at := some 2 })]
    "c" "user" "hi" "assistant" "yo" 1 3
    { messages := [], created_at := 0, updated_at := 0,
      temporary := true, expires_at := some 2 }
    (by decide) rfl (by decide)

/-- C2: when the Gateway stream raises mid-stream on a persist=true
request, the generator emits the already-received fragments and then a
terminal error event whose finished flag is true, performs no store
append, and leaves every stored conversation history unchanged. -/
theorem C2_error_leaves_store_unchanged (sp : Option String) (up : String)
    (cid : Option String) (model : String) (frags : List String) (msg : String)
    (s : CMStore) (now : Nat) :
    applyActs s now
        (generate_stream true sp up cid model (GatewayOutcome.err frags msg)) = s
  ∧ (∀ cid2 mm,
      ConversationManager.get_conversation_history
        (applyActs s now
          (generate_stream true sp up cid model (GatewayOutcome.err frags msg)))
        cid2 mm =
      ConversationManager.get_conversation_history s cid2 mm)
  ∧ (generate_stream true sp up cid model (GatewayOutcome.err frags msg)).getLast?
        = some (Act.emitError (sanitizeError msg))
  ∧ Act.finishedFlag (Act.emitError (sanitizeError msg)) = some true
  ∧ appendActs (generate_stream true sp up cid model (GatewayOutcome.err frags msg))
        = []
  ∧ emittedFragments
        (generate_stream true sp up cid model (GatewayOutcome.err frags msg))
        = frags := by
  have hstore : applyActs s now
      (generate_stream true sp up cid model (GatewayOutcome.err frags msg)) = s := by
    show applyActs s now
      (Act.emitMeta (cid.getD "") model ::
        (streamLoopActs "" frags ++ [Act.emitError (sanitizeError msg)])) = s
    rw [show applyActs s now
        (Act.emitMeta (cid.getD "") model ::
          (streamLoopActs "" frags ++ [Act.emitError (sanitizeError msg)])) =
      applyActs s now
        (streamLoopActs "" frags ++ [Act.emitError (sanitizeError msg)]) from rfl]
    rw [applyActs_append, applyActs_streamLoopActs]
    rfl
  refine ⟨hstore, ?_, ?_, rfl, ?_, ?_⟩
  · intro cid2 mm
    rw [hstore]
  · show (Act.emitMeta (cid.getD "") model ::
      (streamLoopActs "" frags ++ [Act.emitError (sanitizeError msg)])).getLast?
        = some (Act.emitError (sanitizeError msg))
    rw [← List.cons_append, List.getLast?_concat]
  · show appendActs (Act.emitMeta (cid.getD "") model ::
      (streamLoopActs "" frags ++ [Act.emitError (sanitizeError msg)])) = []
    rw [show appendActs (Act.emitMeta (cid.getD "") model ::
        (streamLoopActs "" frags ++ [Act.emitError (sanitizeError msg)])) =
      appendActs (streamLoopActs "" frags ++ [Act.emitError (sanitizeError msg)])
        from rfl]
    rw [appendActs_streamLoopActs]
    rfl
  · show emittedFragments (Act.emitMeta (cid.getD "") model ::
      (streamLoopActs "" frags ++ [Act.emitError (sanitizeError msg)])) = frags
    unfold emittedFragments
    rw [show (Act.emitMeta (cid.getD "") model ::
        (streamLoopActs "" frags ++
          [Act.emitError (sanitizeError msg)])).filterMap Act.fragmentContent =
      (streamLoopActs "" frags ++
        [Act.emitError (sanitizeError msg)]).filterMap Act.fragmentContent from rfl]
    rw [emittedFragments_streamLoopActs]
    simp [Act.fragmentContent]

theorem applyActs_cons_emitMeta (s : CMStore) (now : Nat) (c m : String)
    (rest : List Act) :
    applyActs s now (Act.emitMeta c m :: rest) = applyActs s now rest := rfl

theorem applyActs_cons_emitFinished (s : CMStore) (now : Nat) (rest : List Act) :
    applyActs s now (Act.emitFinished :: rest) = applyActs s now rest := rfl

theorem appendActs_cons_emitMeta (c m : String) (rest : List Act) :
    appendActs (Act.emitMeta c m :: rest) = appendActs rest := rfl

theorem appendActs_cons_emitFinished (rest : List Act) :
    appendActs (Act.emitFinished :: rest) = appendActs rest := rfl

theorem emittedFragments_cons_emitMeta (c m : String) (rest : List Act) :
    emittedFragments (Act.emitMeta c m :: rest) = emittedFragments rest := rfl

theorem emittedFragments_cons_emitFinished (rest : List Act) :
    emittedFragments (Act.emitFinished :: rest) = emittedFragments rest := rfl

theorem accumBeforeEmit_cons_emitMeta (c m : String) (rest : List Act) :
    accumBeforeEmit (Act.emitMeta c m :: rest) = accumBeforeEmit rest := rfl

theorem accumBeforeEmit_cons_emitFinished (rest : List Act) :
    accumBeforeEmit (Act.emitFinished :: rest) = accumBeforeEmit rest := rfl

theorem finishedBeforeAppends_cons_emitMeta (c m : String) (rest : List Act) :
    finishedBeforeAppends (Act.emitMeta c m :: rest) =
      finishedBeforeAppends rest := rfl

theorem finishedBeforeAppends_cons_emitFinished (rest : List Act) :
    finishedBeforeAppends (Act.emitFinished :: rest) = true := rfl

theorem applyActs_ok_shape (s : CMStore) (now : Nat) (c m : String)
    (frags : List String) (apps : List Act) :
    applyActs s now
        (Act.emitMeta c m ::
          (streamLoopActs "" frags ++ [Act.emitFinished] ++ apps)) =
      applyActs s now apps := by
  rw [List.append_assoc, applyActs_cons_emitMeta, applyActs_append,
    applyActs_streamLoopActs, List.singleton_append, applyActs_cons_emitFinished]

theorem appendActs_ok_shape (c m : String) (frags : List String)
    (apps : List Act) :
    appendActs
        (Act.emitMeta c m ::
          (streamLoopActs "" frags ++ [Act.emitFinished] ++ apps)) =
      appendActs apps := by
  rw [List.append_assoc, appendActs_cons_emitMeta, appendActs_streamLoopActs,
    List.singleton_append, appendActs_cons_emitFinished]

theorem emittedFragments_ok_shape (c m : String) (frags : List String)
    (apps : List Act) (happs : emittedFragments apps = []) :
    emittedFragments
        (Act.emitMeta c m ::
          (streamLoopActs "" frags ++ [Act.emitFinished] ++ apps)) = frags := by
  rw [List.append_assoc, emittedFragments_cons_emitMeta]
  unfold emittedFragments
  rw [emittedFragments_streamLoopActs, List.singleton_append]
  rw [show List.filterMap Act.fragmentContent (Act.emitFinished :: apps) =
    List.filterMap Act.fragmentContent apps from rfl]
  rw [show List.filterMap Act.fragmentContent apps = emittedFragments apps from rfl,
    happs, List.append_nil]

theorem accumBeforeEmit_ok_shape (c m : String) (frags : List String)
    (apps : List Act) (happs : accumBeforeEmit apps = true) :
    accumBeforeEmit
        (Act.emitMeta c m ::
          (streamLoopActs "" frags ++ [Act.emitFinished] ++ apps)) = true := by
  rw [List.append_assoc, accumBeforeEmit_cons_emitMeta,
    accumBeforeEmit_streamLoopActs, List.singleton_append,
    accumBeforeEmit_cons_emitFinished, happs]

theorem finishedBeforeAppends_ok_shape (c m : String) (frags : List String)
    (apps : List Act) :
    finishedBeforeAppends
        (Act.emitMeta c m ::
          (streamLoopActs "" frags ++ [Act.emitFinished] ++ apps)) = true := by
  rw [List.append_assoc, finishedBeforeAppends_cons_emitMeta,
    finishedBeforeAppends_streamLoopActs, List.singleton_append,
    finishedBeforeAppends_cons_emitFinished]

theorem generate_stream_ok_eq (sp : Option String) (up cid model : String)
    (frags : List String) (hcid : cid ≠ "") :
    generate_stream true sp up (some cid) model (GatewayOutcome.ok frags) =
      Act.emitMeta cid model ::
        (streamLoopActs "" frags ++ [Act.emitFinished] ++
          ((match sp with
            | some s0 => if s0 = "" then [] else [Act.appendMsg cid "system" s0]
            | none => []) ++
           [Act.appendMsg cid "user" up,
            Act.appendMsg cid "assistant" (streamLoopFull "" frags)])) := by
  unfold generate_stream
  have hcond : (true && truthyId (some cid)) = true := by
    simp [truthyId, hcid]
  rw [hcond]
  simp

/-- C3 counterexample: on a concrete successful persist=true request the
generator emits the stream-finished marker first and performs the store
appends after it, so the claimed ordering — appends first, marker after
them — is false on the trace: not every append precedes the marker. -/
theorem C3_counterexample :
    appendsBeforeFinished
      (generate_stream true (some "You are a helpful AI assistant.") "Hi"
        (some "c1") "llama-3.1-8b-instant"
        (GatewayOutcome.ok ["Hel", "lo"])) = false := by
  decide

/-- C3 amended: on natural end-of-stream with persist=true the generator
performs, as separate appends in this order, the system-prompt message
(only when a non-empty system prompt was supplied on the request), then
the user-prompt message, then one assistant message holding the full
accumulated text; and the stream-finished marker is emitted to the
transport before these appends, not after them. -/
theorem C3_append_order (sp : Option String) (up cid model : String)
    (frags : List String) (hcid : cid ≠ "") :
    appendActs
        (generate_stream true sp up (some cid) model (GatewayOutcome.ok frags)) =
      (match sp with
       | some s0 => if s0 = "" then [] else [(cid, "system", s0)]
       | none => []) ++
        [(cid, "user", up), (cid, "assistant", concatAll frags)]
  ∧ finishedBeforeAppends
        (generate_stream true sp up (some cid) model (GatewayOutcome.ok frags))
        = true := by
  rw [generate_stream_ok_eq sp up cid model frags hcid]
  refine ⟨?_, finishedBeforeAppends_ok_shape cid model frags _⟩
  rw [appendActs_ok_shape, ← streamLoopFull_eq_concatAll]
  cases sp with
  | none => simp [appendActs]
  | some s0 =>
      by_cases hs0 : s0 = "" <;> simp [hs0, appendActs]

/-- C3 witness: the amended ordering at the concrete spec scenario: the
appends are system, user, assistant "Hello", and the finished marker
precedes them. -/
theorem C3_append_order_witness :
    appendActs
        (generate_stream true (some "You are a helpful AI assistant.") "Hi"
          (some "c1") "llama-3.1-8b-instant" (GatewayOutcome.ok ["Hel", "lo"])) =
      (match some "You are a helpful AI assistant." with
       | some s0 => if s0 = "" then [] else [("c1", "system", s0)]
       | none => []) ++
        [("c1", "user", "Hi"), ("c1", "assistant", concatAll ["Hel", "lo"])]
  ∧ finishedBeforeAppends
        (generate_stream true (some "You are a helpful AI assistant.") "Hi"
          (some "c1") "llama-3.1-8b-instant" (GatewayOutcome.ok ["Hel", "lo"]))
        = true :=
  C3_append_order (some "You are a helpful AI assistant.") "Hi" "c1"
    "llama-3.1-8b-instant" ["Hel", "lo"] (by decide)

theorem applyActs_two_appends (s : CMStore) (now : Nat)
    (c1 r1 t1 c2 r2 t2 : String) :
    applyActs s now [Act.appendMsg c1 r1 t1, Act.appendMsg c2 r2 t2] =
      ConversationManager.add_message
        (ConversationManager.add_message s c1 r1 t1 now) c2 r2 t2 now := rfl

theorem emittedFragments_apps (sp : Option String) (cid up full : String) :
    emittedFragments
      ((match sp with
        | some s0 => if s0 = "" then [] else [Act.appendMsg cid "system" s0]
        | none => []) ++
       [Act.appendMsg cid "user" up, Act.appendMsg cid "assistant" full]) = [] := by
  cases sp with
  | none => rfl
  | some s0 => by_cases hs0 : s0 = "" <;>
      simp [hs0, emittedFragments, Act.fragmentContent]

theorem accumBeforeEmit_apps (sp : Option String) (cid up full : String) :
    accumBeforeEmit
      ((match sp with
        | some s0 => if s0 = "" then [] else [Act.appendMsg cid "system" s0]
        | none => []) ++
       [Act.appendMsg cid "user" up, Act.appendMsg cid "assistant" full]) = true := by
  cases sp with
  | none => rfl
  | some s0 => by_cases hs0 : s0 = "" <;> simp [hs0, accumBeforeEmit]

/-- C1: on a persist=true request whose stream completes normally, the
assistant message persisted to the store equals the concatenation, in
emission order, of exactly the fragments emitted to the client (which
are the Gateway fragments in arrival order); and in the trace each
fragment is captured in the accumulator immediately before it is emitted
to the transport. -/
theorem C1_persisted_equals_emitted (sp : Option String) (up cid model : String)
    (frags : List String) (s : CMStore) (now : Nat) (hcid : cid ≠ "") :
    (ConversationManager.get_conversation_history
        (applyActs s now
          (generate_stream true sp up (some cid) model (GatewayOutcome.ok frags)))
        cid none).getLast? =
      some { role := "assistant",
             content := concatAll (emittedFragments
               (generate_stream true sp up (some cid) model
                 (GatewayOutcome.ok frags))) }
  ∧ emittedFragments
        (generate_stream true sp up (some cid) model (GatewayOutcome.ok frags))
        = frags
  ∧ accumBeforeEmit
        (generate_stream true sp up (some cid) model (GatewayOutcome.ok frags))
        = true := by
  rw [generate_stream_ok_eq sp up cid model frags hcid]
  have hfrags := emittedFragments_ok_shape cid model frags _
    (emittedFragments_apps sp cid up (streamLoopFull "" frags))
  refine ⟨?_, hfrags, accumBeforeEmit_ok_shape cid model frags _
    (accumBeforeEmit_apps sp cid up (streamLoopFull "" frags))⟩
  rw [hfrags, applyActs_ok_shape, applyActs_append, applyActs_two_appends,
    ConversationManager.history_add, List.getLast?_concat,
    streamLoopFull_eq_concatAll]

/-- C1 witness: the spec scenario: Gateway fragments "Hel", "lo" on a
persist=true request; the persisted assistant message is the
concatenation of the two emitted fragments, the fragments are emitted in
arrival order, and each accumulation precedes its emission. -/
theorem C1_persisted_equals_emitted_witness :
    ("c1" : String) ≠ ""
  ∧ ((ConversationManager.get_conversation_history
        (applyActs ([] : CMStore) 0
          (generate_stream true (some "You are a helpful AI assistant.") "Hi"
            (some "c1") "llama-3.1-8b-instant" (GatewayOutcome.ok ["Hel", "lo"])))
        "c1" none).getLast? =
      some { role := "assistant",
             content := concatAll (emittedFragments
               (generate_stream true (some "You are a helpful AI assistant.") "Hi"
                 (some "c1") "llama-3.1-8b-instant"
                 (GatewayOutcome.ok ["Hel", "lo"]))) }
    ∧ emittedFragments
        (generate_stream true (some "You are a helpful AI assistant.") "Hi"
          (some "c1") "llama-3.1-8b-instant" (GatewayOutcome.ok ["Hel", "lo"]))
        = ["Hel", "lo"]
    ∧ accumBeforeEmit
        (generate_stream true (some "You are a helpful AI assistant.") "Hi"
          (some "c1") "llama-3.1-8b-instant" (GatewayOutcome.ok ["Hel", "lo"]))
        = true) :=
  ⟨by decide,
   C1_persisted_equals_emitted (some "You are a helpful AI assistant.") "Hi" "c1"
     "llama-3.1-8b-instant" ["Hel", "lo"] [] 0 (by decide)⟩
